import Mathlib

/-!
Shallow embedding of the resilience core of `bot-template`:

* the circuit breaker (`src/src/utils/cache.ts`, classes `CircuitBreaker`,
  `CircuitBreakerError`, `CircuitBreakerRegistry`), and
* the retry executor (`src/src/utils/retry.ts`, function `retry`).

The breaker's mutable instance fields become the record `CBState`; each
method becomes a Lean function from the pre-state to the post-state,
together with the list of events it emits.  `fn` is asynchronous and
opaque in the source, so each `execute` call takes the outcome that
`fn` would resolve to (`Except CBError Val`) and the current clock
instant (`Date.now()` is a parameter `now : Int`).  The `setTimeout`
reset timer is modelled as a pending flag plus an explicit `timerFire`
step for the scheduler firing the callback.
-/

deriving instance DecidableEq for Except

namespace BotTemplate

/-- `enum CircuitState` from the source. -/
inductive CircuitState where
  | CLOSED
  | OPEN
  | HALF_OPEN
  deriving DecidableEq, Repr

/-- Errors flowing through the breaker: the source's `CircuitBreakerError`
class (with its message), and opaque errors thrown by the wrapped `fn`,
distinguished by a tag. -/
inductive CBError where
  | circuitBreakerError (msg : String)
  | external (tag : Nat)
  deriving DecidableEq, Repr

/-- Values returned by the wrapped `fn`; the breaker is generic in `T`,
and nothing it does depends on the value, so a fixed carrier suffices. -/
abbrev Val := Nat

/-- Events emitted by the breaker (`CircuitBreakerEvents`).  The source
event names `open`, `close` and `halfOpen` are Lean keywords or clash
with method names, hence the suffixed constructor names. -/
inductive CBEvent where
  | stateChange (next prev : CircuitState)
  | success
  | failure (e : CBError)
  | openedEv
  | closedEv
  | halfOpenEv
  | fallback
  deriving DecidableEq, Repr

/-- The default `fallback` option: `() => { throw new
CircuitBreakerError('Circuit breaker is open') }`. -/
def defaultFallback : Except CBError Val :=
  Except.error (CBError.circuitBreakerError "Circuit breaker is open")

/-- `CircuitBreakerOptions` after the constructor has filled in the
defaults (the source's `Required<CircuitBreakerOptions>`).  A fallback
either returns a value or throws, so it is an `Except` outcome. -/
structure CircuitBreakerOptions where
  failureThreshold : Nat := 5
  successThreshold : Nat := 2
  resetTimeout : Int := 30000
  failureWindow : Int := 60000
  isFailure : CBError → Bool := fun _ => true
  fallback : Except CBError Val := defaultFallback
  name : String := "default"

/-- The mutable instance fields of `CircuitBreaker`.  `resetTimerPending`
is true exactly while a `setTimeout` scheduled by `scheduleReset` has
neither fired nor been cleared. -/
structure CBState where
  state : CircuitState := CircuitState.CLOSED
  failures : Nat := 0
  successes : Nat := 0
  lastFailure : Option Int := none
  lastSuccess : Option Int := none
  totalCalls : Nat := 0
  totalFailures : Nat := 0
  totalSuccesses : Nat := 0
  resetTimerPending : Bool := false
  failureTimestamps : List Int := []
  deriving DecidableEq, Repr

/-- A freshly constructed breaker (all field initializers). -/
def CBState.init : CBState := {}

/-- `private open()`: no-op when already OPEN, otherwise set state to
OPEN, emit events and schedule the reset timer (`scheduleReset` clears
any previous timer and starts a new one, so the pending flag ends true). -/
def CBState.openCircuit (s : CBState) : CBState × List CBEvent :=
  if s.state = CircuitState.OPEN then (s, [])
  else
    ({ s with state := CircuitState.OPEN, resetTimerPending := true },
     [CBEvent.stateChange CircuitState.OPEN s.state, CBEvent.openedEv])

/-- `private close()`: no-op when already CLOSED, otherwise set state to
CLOSED, zero `failures`/`successes`, clear the failure window and the
reset timer, and emit events. -/
def CBState.closeCircuit (s : CBState) : CBState × List CBEvent :=
  if s.state = CircuitState.CLOSED then (s, [])
  else
    ({ s with state := CircuitState.CLOSED, failures := 0, successes := 0,
              failureTimestamps := [], resetTimerPending := false },
     [CBEvent.stateChange CircuitState.CLOSED s.state, CBEvent.closedEv])

/-- `private halfOpen()`: no-op when already HALF_OPEN, otherwise set
state to HALF_OPEN, zero `successes` and emit events. -/
def CBState.halfOpenCircuit (s : CBState) : CBState × List CBEvent :=
  if s.state = CircuitState.HALF_OPEN then (s, [])
  else
    ({ s with state := CircuitState.HALF_OPEN, successes := 0 },
     [CBEvent.stateChange CircuitState.HALF_OPEN s.state, CBEvent.halfOpenEv])

/-- `private cleanupFailureTimestamps()`: drop window entries at or
before `now - failureWindow` (the source keeps `ts > cutoff`). -/
def CBState.cleanupFailureTimestamps (opts : CircuitBreakerOptions)
    (s : CBState) (now : Int) : CBState :=
  { s with failureTimestamps :=
      s.failureTimestamps.filter (fun ts => decide (now - opts.failureWindow < ts)) }

/-- `private onSuccess()` at instant `now`. -/
def CBState.onSuccess (opts : CircuitBreakerOptions) (s : CBState) (now : Int) :
    CBState × List CBEvent :=
  let s1 : CBState := { s with successes := s.successes + 1,
                               totalSuccesses := s.totalSuccesses + 1,
                               lastSuccess := some now }
  if s1.state = CircuitState.HALF_OPEN then
    if opts.successThreshold ≤ s1.successes then
      let r := s1.closeCircuit
      (r.1, CBEvent.success :: r.2)
    else (s1, [CBEvent.success])
  else if s1.state = CircuitState.CLOSED then
    ({ s1 with failures := 0, failureTimestamps := [] }, [CBEvent.success])
  else (s1, [CBEvent.success])

/-- `private onFailure(error)` at instant `now`: bump counters, push the
timestamp, prune the window, then branch on the state. -/
def CBState.onFailure (opts : CircuitBreakerOptions) (s : CBState)
    (e : CBError) (now : Int) : CBState × List CBEvent :=
  let s1 : CBState := { s with failures := s.failures + 1,
                               totalFailures := s.totalFailures + 1,
                               lastFailure := some now,
                               failureTimestamps := s.failureTimestamps ++ [now] }
  let s2 := s1.cleanupFailureTimestamps opts now
  if s2.state = CircuitState.HALF_OPEN then
    let r := s2.openCircuit
    (r.1, CBEvent.failure e :: r.2)
  else if s2.state = CircuitState.CLOSED then
    if opts.failureThreshold ≤ s2.failureTimestamps.length then
      let r := s2.openCircuit
      (r.1, CBEvent.failure e :: r.2)
    else (s2, [CBEvent.failure e])
  else (s2, [CBEvent.failure e])

/-- What one `execute` call produced: the post-state, whether `fn` was
invoked, the call's overall outcome (return value or thrown error), and
the events emitted during the call. -/
structure ExecResult where
  post : CBState
  fnInvoked : Bool
  outcome : Except CBError Val
  events : List CBEvent

/-- `execute(fn)` where `fn`, when invoked, resolves to `fnOutcome` and
the call happens at instant `now`. -/
def CBState.execute (opts : CircuitBreakerOptions) (s : CBState)
    (fnOutcome : Except CBError Val) (now : Int) : ExecResult :=
  let s1 : CBState := { s with totalCalls := s.totalCalls + 1 }
  if s1.state = CircuitState.OPEN then
    { post := s1, fnInvoked := false, outcome := opts.fallback,
      events := [CBEvent.fallback] }
  else
    match fnOutcome with
    | Except.ok v =>
        let r := s1.onSuccess opts now
        { post := r.1, fnInvoked := true, outcome := Except.ok v, events := r.2 }
    | Except.error e =>
        if opts.isFailure e then
          let r := s1.onFailure opts e now
          { post := r.1, fnInvoked := true, outcome := Except.error e,
            events := r.2 }
        else
          { post := s1, fnInvoked := true, outcome := Except.error e,
            events := [] }

/-- `forceOpen()`. -/
def CBState.forceOpen (s : CBState) : CBState × List CBEvent :=
  s.openCircuit

/-- `forceClose()`. -/
def CBState.forceClose (s : CBState) : CBState × List CBEvent :=
  s.closeCircuit

/-- `reset()`: `close()` then zero the lifetime counters and the
last-failure/success instants. -/
def CBState.reset (s : CBState) : CBState × List CBEvent :=
  let r := s.closeCircuit
  ({ r.1 with totalCalls := 0, totalFailures := 0, totalSuccesses := 0,
              lastFailure := none, lastSuccess := none }, r.2)

/-- The scheduler firing the pending `setTimeout` callback from
`scheduleReset` (which calls `halfOpen()`); a no-op when no timeout is
outstanding. -/
def CBState.timerFire (s : CBState) : CBState × List CBEvent :=
  if s.resetTimerPending then
    ({ s with resetTimerPending := false }).halfOpenCircuit
  else (s, [])

/-- `isCallable()`. -/
def CBState.isCallable (s : CBState) : Bool :=
  decide (s.state ≠ CircuitState.OPEN)

/-- A breaker instance as stored in a registry: its (immutable) resolved
options together with its mutable state. -/
structure CircuitBreaker where
  opts : CircuitBreakerOptions
  st : CBState

/-- `CircuitBreakerRegistry`: the `Map<string, CircuitBreaker>` modelled
as an association list in insertion order. -/
structure CircuitBreakerRegistry where
  breakers : List (String × CircuitBreaker) := []

/-- `this.breakers.get(name)`. -/
def CircuitBreakerRegistry.find (r : CircuitBreakerRegistry) (name : String) :
    Option CircuitBreaker :=
  (r.breakers.find? (fun p => p.1 == name)).map Prod.snd

/-- `get(name, options?)`: return the stored breaker, or construct
`new CircuitBreaker({ ...options, name })` and store it. -/
def CircuitBreakerRegistry.get (r : CircuitBreakerRegistry) (name : String)
    (options : CircuitBreakerOptions) : CircuitBreaker × CircuitBreakerRegistry :=
  match r.find name with
  | some b => (b, r)
  | none =>
      let b : CircuitBreaker := { opts := { options with name := name }, st := CBState.init }
      (b, { breakers := r.breakers ++ [(name, b)] })

/-- `has(name)`. -/
def CircuitBreakerRegistry.hasName (r : CircuitBreakerRegistry) (name : String) : Bool :=
  (r.find name).isSome

/-- `remove(name)`: when present, `breaker.reset()` (the instance is
about to be dropped, so only the deletion is observable through the
registry) and delete the entry; returns whether a deletion happened. -/
def CircuitBreakerRegistry.remove (r : CircuitBreakerRegistry) (name : String) :
    Bool × CircuitBreakerRegistry :=
  match r.find name with
  | some _ =>
      (true, { breakers := r.breakers.filter (fun p => !(p.1 == name)) })
  | none => (false, r)

/-! ### Retry executor (`src/src/utils/retry.ts`) -/

/-- `RetryOptions` after defaulting (`Required<RetryOptions>`); the
`onRetry` observer has no effect on the executor's state and is not
modelled. -/
structure RetryOptions where
  retries : Nat := 5
  delay : Nat := 5000
  exponential : Bool := false
  maxDelay : Nat := 60000

/-- The error a `retry` call rethrows: the last error captured from
`fn`, or `new Error('Retries exhausted with unknown error')` when no
attempt ever ran. -/
inductive RetryError where
  | fromFn (e : CBError)
  | exhaustedUnknown
  deriving DecidableEq, Repr

/-- What one `retry` call produced: the overall outcome, how many times
`fn` was invoked, and the waits inserted between attempts (in order). -/
structure RetryResult where
  outcome : Except RetryError Val
  calls : Nat
  waits : List Nat
  deriving DecidableEq, Repr

/-- The `for (let i = 0; i < opts.retries; i++)` loop of `retry`.
`fn j` is the outcome of the `j`-th (0-based) invocation of `fn`;
`fuel` is `opts.retries - i`, making the recursion structural. -/
def retryAux (opts : RetryOptions) (fn : Nat → Except CBError Val)
    (i fuel : Nat) (lastError : Option CBError) (calls : Nat)
    (waits : List Nat) : RetryResult :=
  match fuel with
  | 0 =>
      { outcome := Except.error (match lastError with
          | some e => RetryError.fromFn e
          | none => RetryError.exhaustedUnknown),
        calls := calls, waits := waits }
  | fuel' + 1 =>
      match fn i with
      | Except.ok v => { outcome := Except.ok v, calls := calls + 1, waits := waits }
      | Except.error e =>
          if i < opts.retries - 1 then
            let waitTime :=
              if opts.exponential then min (opts.delay * 2 ^ i) opts.maxDelay
              else opts.delay
            retryAux opts fn (i + 1) fuel' (some e) (calls + 1) (waits ++ [waitTime])
          else
            retryAux opts fn (i + 1) fuel' (some e) (calls + 1) waits

/-- `retry(fn, options)` with the options already defaulted. -/
def retry (opts : RetryOptions) (fn : Nat → Except CBError Val) : RetryResult :=
  retryAux opts fn 0 opts.retries none 0 []

/-! ### Operations and reachability for the transition-edge invariant -/

/-- Every operation that can touch a breaker's state: an `execute` call
(with the outcome `fn` would produce and the clock instant), the reset
timer firing, and the administrative `forceOpen`/`forceClose`/`reset`. -/
inductive Op where
  | exec (fnOutcome : Except CBError Val) (now : Int)
  | timerFire
  | forceOpenOp
  | forceCloseOp
  | resetOp

/-- The administrative (operator-override) operations. -/
def Op.isAdmin : Op → Bool
  | Op.forceOpenOp => true
  | Op.forceCloseOp => true
  | Op.resetOp => true
  | _ => false

/-- Apply one operation to a breaker state. -/
def applyOp (opts : CircuitBreakerOptions) (op : Op) (s : CBState) : CBState :=
  match op with
  | Op.exec out now => (s.execute opts out now).post
  | Op.timerFire => s.timerFire.1
  | Op.forceOpenOp => s.forceOpen.1
  | Op.forceCloseOp => s.forceClose.1
  | Op.resetOp => s.reset.1

/-- States reachable from a freshly constructed breaker. -/
inductive Reachable (opts : CircuitBreakerOptions) : CBState → Prop where
  | init : Reachable opts CBState.init
  | step (s : CBState) (op : Op) : Reachable opts s → Reachable opts (applyOp opts op s)

/-- The four transition edges named by the spec. -/
def specEdge (a b : CircuitState) : Prop :=
  (a = CircuitState.CLOSED ∧ b = CircuitState.OPEN) ∨
  (a = CircuitState.OPEN ∧ b = CircuitState.HALF_OPEN) ∨
  (a = CircuitState.HALF_OPEN ∧ b = CircuitState.CLOSED) ∨
  (a = CircuitState.HALF_OPEN ∧ b = CircuitState.OPEN)

/-- The edges actually reachable: the spec's four plus OPEN→CLOSED,
which `forceClose()`/`reset()` produce from OPEN. -/
def adminEdge (a b : CircuitState) : Prop :=
  specEdge a b ∨ (a = CircuitState.OPEN ∧ b = CircuitState.CLOSED)

/-! ### Scenario runners -/

/-- Run a sequence of `execute` calls whose `fn` always throws `e`, at
the given instants; returns the final state and how many times `fn`
was invoked. -/
def runFailures (opts : CircuitBreakerOptions) (e : CBError) (s : CBState) :
    List Int → CBState × Nat
  | [] => (s, 0)
  | t :: rest =>
      let r := s.execute opts (Except.error e) t
      let rec' := runFailures opts e r.post rest
      (rec'.1, (if r.fnInvoked then 1 else 0) + rec'.2)

/-- Run a sequence of `execute` calls whose `fn` always succeeds with
`v`, at the given instants. -/
def runSuccesses (opts : CircuitBreakerOptions) (v : Val) (s : CBState) :
    List Int → CBState
  | [] => s
  | t :: rest => runSuccesses opts v (s.execute opts (Except.ok v) t).post rest

/-! ### Basic lemmas about the breaker's methods -/

theorem openCircuit_state (s : CBState) :
    (s.openCircuit).1.state = CircuitState.OPEN := by
  unfold CBState.openCircuit
  split <;> simp_all

theorem closeCircuit_state (s : CBState) :
    (s.closeCircuit).1.state = CircuitState.CLOSED := by
  unfold CBState.closeCircuit
  split <;> simp_all

theorem halfOpenCircuit_state (s : CBState) :
    (s.halfOpenCircuit).1.state = CircuitState.HALF_OPEN := by
  unfold CBState.halfOpenCircuit
  split <;> simp_all

/-- While OPEN, `execute` short-circuits: it does not invoke `fn`, it
returns the fallback's outcome, it emits exactly the fallback event, and
the only state change is the `totalCalls` bump. -/
theorem execute_while_open (opts : CircuitBreakerOptions) (s : CBState)
    (out : Except CBError Val) (now : Int) (h : s.state = CircuitState.OPEN) :
    s.execute opts out now =
      { post := { s with totalCalls := s.totalCalls + 1 }, fnInvoked := false,
        outcome := opts.fallback, events := [CBEvent.fallback] } := by
  simp [CBState.execute, h]

/-- `execute` with an error that `isFailure` rejects: the error is
rethrown, `fn` was invoked, no event fires, and no field other than
`totalCalls` changes (in particular neither `totalFailures` nor the
windowed `failures`/`failureTimestamps`, and the state is untouched). -/
theorem execute_ignored_error (opts : CircuitBreakerOptions) (s : CBState)
    (e : CBError) (now : Int) (hs : s.state ≠ CircuitState.OPEN)
    (hf : opts.isFailure e = false) :
    s.execute opts (Except.error e) now =
      { post := { s with totalCalls := s.totalCalls + 1 }, fnInvoked := true,
        outcome := Except.error e, events := [] } := by
  simp [CBState.execute, hs, hf]

/-- `onFailure` always bumps `totalFailures` by one. -/
theorem onFailure_totalFailures (opts : CircuitBreakerOptions) (s : CBState)
    (e : CBError) (now : Int) :
    (s.onFailure opts e now).1.totalFailures = s.totalFailures + 1 := by
  unfold CBState.onFailure CBState.cleanupFailureTimestamps CBState.openCircuit
  dsimp only
  split <;> (try split) <;> (try split) <;> simp_all

/-! ### Claim theorems: error accounting, OPEN short-circuit, reset -/

/-- C2.  For every `execute` call made while the breaker is OPEN, `fn`
is not invoked: a fallback event is emitted and the configured
fallback's outcome replaces the call; with the default fallback the
outcome is the thrown `CircuitBreakerError "Circuit breaker is open"`
(the synthetic error the spec's taxonomy names `CircuitOpenError`). -/
theorem execute_open_short_circuits (opts : CircuitBreakerOptions) (s : CBState)
    (out : Except CBError Val) (now : Int) (h : s.state = CircuitState.OPEN) :
    (s.execute opts out now).fnInvoked = false ∧
    (s.execute opts out now).outcome = opts.fallback ∧
    (s.execute opts out now).events = [CBEvent.fallback] ∧
    (s.execute opts out now).post = { s with totalCalls := s.totalCalls + 1 } ∧
    (opts.fallback = defaultFallback →
      (s.execute opts out now).outcome =
        Except.error (CBError.circuitBreakerError "Circuit breaker is open")) := by
  rw [execute_while_open opts s out now h]
  refine ⟨rfl, rfl, rfl, rfl, ?_⟩
  intro hfb
  simp [hfb, defaultFallback]

theorem execute_open_short_circuits_witness :
    ({ state := CircuitState.OPEN : CBState }).state = CircuitState.OPEN ∧
    (({ state := CircuitState.OPEN : CBState }).execute {} (Except.ok 0) 0).fnInvoked = false ∧
    (({ state := CircuitState.OPEN : CBState }).execute {} (Except.ok 0) 0).outcome =
      Except.error (CBError.circuitBreakerError "Circuit breaker is open") :=
  ⟨rfl,
   (execute_open_short_circuits {} { state := CircuitState.OPEN } (Except.ok 0) 0 rfl).1,
   (execute_open_short_circuits {} { state := CircuitState.OPEN } (Except.ok 0) 0 rfl).2.2.2.2 rfl⟩

/-- C3 counterexample.  The claim says `totalFailures` is incremented
for *every* error thrown by `fn`, but when `isFailure(error)` is false
the code skips `onFailure` entirely, so `totalFailures` stays 0 after
an ignored error (while the claim requires 1). -/
theorem ignored_error_total_failures_cex :
    (CBState.init.execute { isFailure := fun _ => false }
        (Except.error (CBError.external 0)) 0).post.totalFailures = 0 ∧
    (CBState.init.execute { isFailure := fun _ => false }
        (Except.error (CBError.external 0)) 0).post.totalFailures ≠ 1 ∧
    (CBState.init.execute { isFailure := fun _ => false }
        (Except.error (CBError.external 0)) 0).fnInvoked = true := by
  refine ⟨rfl, ?_, rfl⟩
  decide

/-- C3 amended.  For every *counted* error thrown by `fn` inside
`execute` (that is, `isFailure(error)` true), `totalFailures` is
incremented; when `isFailure(error)` is false nothing is counted at
all — `totalFailures`, the windowed `failures` counter and the state
are all unchanged (only `totalCalls` bumps) — and the error is still
rethrown to the caller. -/
theorem ignored_error_not_counted (opts : CircuitBreakerOptions) (s : CBState)
    (e : CBError) (now : Int) (hs : s.state ≠ CircuitState.OPEN) :
    (opts.isFailure e = true →
      (s.execute opts (Except.error e) now).post.totalFailures = s.totalFailures + 1) ∧
    (opts.isFailure e = false →
      (s.execute opts (Except.error e) now).post = { s with totalCalls := s.totalCalls + 1 } ∧
      (s.execute opts (Except.error e) now).post.state = s.state ∧
      (s.execute opts (Except.error e) now).post.failures = s.failures ∧
      (s.execute opts (Except.error e) now).post.totalFailures = s.totalFailures ∧
      (s.execute opts (Except.error e) now).outcome = Except.error e ∧
      (s.execute opts (Except.error e) now).fnInvoked = true) := by
  constructor
  · intro hf
    simp [CBState.execute, hs, hf, onFailure_totalFailures]
  · intro hf
    rw [execute_ignored_error opts s e now hs hf]
    exact ⟨rfl, rfl, rfl, rfl, rfl, rfl⟩

theorem ignored_error_not_counted_witness :
    CBState.init.state ≠ CircuitState.OPEN ∧
    (CBState.init.execute { isFailure := fun _ => false }
        (Except.error (CBError.external 0)) 0).post.totalFailures = CBState.init.totalFailures :=
  ⟨by decide,
   ((ignored_error_not_counted { isFailure := fun _ => false } CBState.init
       (CBError.external 0) 0 (by decide)).2 rfl).2.2.2.1⟩

/-- C8.  After `reset()`, regardless of the prior state, the state is
CLOSED, the three lifetime counters are 0, and `lastFailure` and
`lastSuccess` are null. -/
theorem reset_restores_pristine_counters (s : CBState) :
    (s.reset).1.state = CircuitState.CLOSED ∧
    (s.reset).1.totalCalls = 0 ∧
    (s.reset).1.totalFailures = 0 ∧
    (s.reset).1.totalSuccesses = 0 ∧
    (s.reset).1.lastFailure = none ∧
    (s.reset).1.lastSuccess = none := by
  unfold CBState.reset CBState.closeCircuit
  split <;> simp_all

/-- C10.  `reset()` (and `forceClose()`) invoked while already CLOSED
leave the windowed `failures`/`successes` counters and
`failureTimestamps` untouched, because `close()` returns early when the
state is already CLOSED: `reset()` then changes exactly the lifetime
counters and the last instants, and `forceClose()` changes nothing.
Consequently (last conjunct, with `failureThreshold = 3`) two counted
failures recorded before a `reset()` still count afterwards: one more
counted failure opens the circuit. -/
theorem reset_while_closed_frame (s : CBState) (h : s.state = CircuitState.CLOSED) :
    (s.reset).1 = { s with totalCalls := 0, totalFailures := 0, totalSuccesses := 0,
                           lastFailure := none, lastSuccess := none } ∧
    (s.forceClose).1 = s ∧
    (s.reset).1.failures = s.failures ∧
    (s.reset).1.successes = s.successes ∧
    (s.reset).1.failureTimestamps = s.failureTimestamps ∧
    ((((runFailures { failureThreshold := 3 } (CBError.external 0) CBState.init
          [0, 0]).1.reset).1.execute { failureThreshold := 3 }
            (Except.error (CBError.external 0)) 0).post.state = CircuitState.OPEN) := by
  refine ⟨?_, ?_, ?_, ?_, ?_, ?_⟩
  · simp [CBState.reset, CBState.closeCircuit, h]
  · simp [CBState.forceClose, CBState.closeCircuit, h]
  · simp [CBState.reset, CBState.closeCircuit, h]
  · simp [CBState.reset, CBState.closeCircuit, h]
  · simp [CBState.reset, CBState.closeCircuit, h]
  · decide

theorem reset_while_closed_frame_witness :
    CBState.init.state = CircuitState.CLOSED ∧
    (CBState.init.forceClose).1 = CBState.init :=
  ⟨rfl, (reset_while_closed_frame CBState.init rfl).2.1⟩

/-! ### Retry executor lemmas -/

theorem retryAux_calls_le (opts : RetryOptions) (fn : Nat → Except CBError Val) :
    ∀ (fuel i : Nat) (lastE : Option CBError) (calls : Nat) (waits : List Nat),
      (retryAux opts fn i fuel lastE calls waits).calls ≤ calls + fuel := by
  intro fuel
  induction fuel with
  | zero => intro i lastE calls waits; simp [retryAux]
  | succ fuel ih =>
      intro i lastE calls waits
      rw [retryAux]
      cases h : fn i with
      | ok v => simp
      | error e =>
          dsimp only
          split
          · exact (ih _ _ _ _).trans (by omega)
          · exact (ih _ _ _ _).trans (by omega)

/-- When the run reaches attempt `k` (every earlier attempt fails) and
attempt `k` succeeds, the loop returns that value after exactly `k + 1`
invocations of `fn`. -/
theorem retryAux_succeeds (opts : RetryOptions) (fn : Nat → Except CBError Val)
    (v : Val) (k : Nat) (hk : fn k = Except.ok v)
    (hprev : ∀ j < k, ∃ e, fn j = Except.error e) :
    ∀ (fuel i : Nat) (lastE : Option CBError) (calls : Nat) (waits : List Nat),
      i + fuel = opts.retries → i ≤ k → k < opts.retries →
      (retryAux opts fn i fuel lastE calls waits).outcome = Except.ok v ∧
      (retryAux opts fn i fuel lastE calls waits).calls = calls + (k - i) + 1 := by
  intro fuel
  induction fuel with
  | zero => intro i lastE calls waits h1 h2 h3; omega
  | succ fuel ih =>
      intro i lastE calls waits h1 h2 h3
      rcases Nat.eq_or_lt_of_le h2 with rfl | hik
      · rw [retryAux, hk]
        exact ⟨rfl, by simp⟩
      · obtain ⟨e, he⟩ := hprev i hik
        rw [retryAux, he]
        dsimp only
        rw [if_pos (by omega)]
        have := ih (i + 1) (some e) (calls + 1)
          (waits ++ [if opts.exponential then min (opts.delay * 2 ^ i) opts.maxDelay
                     else opts.delay])
          (by omega) (by omega) h3
        exact ⟨this.1, by rw [this.2]; omega⟩

/-- When every attempt fails, the loop runs its full budget: `fn` is
invoked once per unit of fuel and the rethrown error is the last one
observed. -/
theorem retryAux_allfail (opts : RetryOptions) (fn : Nat → Except CBError Val)
    (e : Nat → CBError) (hfn : ∀ j, fn j = Except.error (e j)) :
    ∀ (n i : Nat) (lastE : Option CBError) (calls : Nat) (waits : List Nat),
      (retryAux opts fn i (n + 1) lastE calls waits).calls = calls + n + 1 ∧
      (retryAux opts fn i (n + 1) lastE calls waits).outcome =
        Except.error (RetryError.fromFn (e (i + n))) := by
  intro n
  induction n with
  | zero =>
      intro i lastE calls waits
      rw [retryAux, hfn i]
      dsimp only
      split <;> simp [retryAux]
  | succ n ih =>
      intro i lastE calls waits
      rw [retryAux, hfn i]
      dsimp only
      split
      · have := ih (i + 1) (some (e i)) (calls + 1)
          (waits ++ [if opts.exponential then min (opts.delay * 2 ^ i) opts.maxDelay
                     else opts.delay])
        refine ⟨by rw [this.1]; omega, ?_⟩
        rw [this.2]
        have : i + 1 + n = i + (n + 1) := by omega
        rw [this]
      · have := ih (i + 1) (some (e i)) (calls + 1) waits
        refine ⟨by rw [this.1]; omega, ?_⟩
        rw [this.2]
        have : i + 1 + n = i + (n + 1) := by omega
        rw [this]

/-- When every attempt fails, the waits inserted between attempts are
exactly the backoff schedule for attempt indices `i, …, retries - 2`
(no wait follows the final attempt). -/
theorem retryAux_allfail_waits (opts : RetryOptions) (fn : Nat → Except CBError Val)
    (e : Nat → CBError) (hfn : ∀ j, fn j = Except.error (e j)) :
    ∀ (fuel i : Nat) (lastE : Option CBError) (calls : Nat) (waits : List Nat),
      i + fuel = opts.retries →
      (retryAux opts fn i fuel lastE calls waits).waits =
        waits ++ (List.range' i (opts.retries - 1 - i)).map
          (fun j => if opts.exponential then min (opts.delay * 2 ^ j) opts.maxDelay
                    else opts.delay) := by
  intro fuel
  induction fuel with
  | zero =>
      intro i lastE calls waits h1
      have h2 : opts.retries - 1 - i = 0 := by omega
      rw [h2]
      simp [retryAux]
  | succ fuel ih =>
      intro i lastE calls waits h1
      rw [retryAux, hfn i]
      dsimp only
      split
      · rename_i hlt
        rw [ih (i + 1) (some (e i)) (calls + 1) _ (by omega)]
        have h2 : opts.retries - 1 - i = (opts.retries - 1 - (i + 1)) + 1 := by omega
        rw [h2, List.range'_succ]
        simp
      · rename_i hge
        have hf0 : fuel = 0 := by omega
        have h2 : opts.retries - 1 - i = 0 := by omega
        subst hf0
        rw [h2]
        simp [retryAux]

/-! ### Claim theorems: retry executor -/

/-- C5.  `retry(fn, options)` with `retries = n` invokes `fn` at most
`n` times; with `retries = 3`, a function failing twice then succeeding
is invoked exactly 3 times and its success value is returned; a
function that always fails is invoked exactly `n` times and the last
observed error is rethrown (never the generic retries-exhausted error,
which only appears when no attempt ever ran). -/
theorem retry_attempt_semantics :
    (∀ (opts : RetryOptions) (fn : Nat → Except CBError Val),
       (retry opts fn).calls ≤ opts.retries) ∧
    (∀ (d m : Nat) (fn : Nat → Except CBError Val) (e0 e1 : CBError) (v : Val),
       fn 0 = Except.error e0 → fn 1 = Except.error e1 → fn 2 = Except.ok v →
       (retry { retries := 3, delay := d, exponential := false, maxDelay := m } fn).outcome
           = Except.ok v ∧
       (retry { retries := 3, delay := d, exponential := false, maxDelay := m } fn).calls
           = 3) ∧
    (∀ (opts : RetryOptions) (fn : Nat → Except CBError Val) (e : Nat → CBError),
       1 ≤ opts.retries → (∀ j, fn j = Except.error (e j)) →
       (retry opts fn).calls = opts.retries ∧
       (retry opts fn).outcome =
         Except.error (RetryError.fromFn (e (opts.retries - 1)))) := by
  refine ⟨?_, ?_, ?_⟩
  · intro opts fn
    simpa using retryAux_calls_le opts fn opts.retries 0 none 0 []
  · intro d m fn e0 e1 v h0 h1 h2
    have hprev : ∀ j < 2, ∃ e, fn j = Except.error e := by
      intro j hj
      interval_cases j
      · exact ⟨e0, h0⟩
      · exact ⟨e1, h1⟩
    have := retryAux_succeeds { retries := 3, delay := d, exponential := false, maxDelay := m }
      fn v 2 h2 hprev 3 0 none 0 [] rfl (by omega) (by simp)
    exact ⟨this.1, this.2⟩
  · intro opts fn e hr hfn
    obtain ⟨n, hn⟩ : ∃ n, opts.retries = n + 1 := ⟨opts.retries - 1, by omega⟩
    have := retryAux_allfail opts fn e hfn n 0 none 0 []
    rw [retry, hn]
    refine ⟨by rw [this.1]; omega, ?_⟩
    rw [this.2]
    have h2 : (0 : Nat) + n = n + 1 - 1 := by omega
    rw [h2]

theorem retry_attempt_semantics_witness :
    (retry { retries := 3, delay := 10, exponential := false, maxDelay := 60000 }
       (fun j => if j < 2 then Except.error (CBError.external j) else Except.ok 42)).outcome
      = Except.ok 42 ∧
    (retry { retries := 3, delay := 10, exponential := false, maxDelay := 60000 }
       (fun j => if j < 2 then Except.error (CBError.external j) else Except.ok 42)).calls
      = 3 ∧
    (retry { retries := 4, delay := 10, exponential := false, maxDelay := 60000 }
       (fun j => Except.error (CBError.external j))).outcome
      = Except.error (RetryError.fromFn (CBError.external 3)) :=
  ⟨(retry_attempt_semantics.2.1 10 60000 _ (CBError.external 0) (CBError.external 1) 42
      rfl rfl rfl).1,
   (retry_attempt_semantics.2.1 10 60000 _ (CBError.external 0) (CBError.external 1) 42
      rfl rfl rfl).2,
   (retry_attempt_semantics.2.2 { retries := 4, delay := 10, exponential := false, maxDelay := 60000 } _ (fun j => CBError.external j) (by decide) (fun j => rfl)).2⟩

/-- C6 counterexample.  With `delay=1000`, `maxDelay=8000`, `retries=5`
and every attempt failing, the inter-attempt waits are
`[1000, 2000, 4000, 8000]` — only four waits, because no wait is
inserted after the final attempt — not the five values
`[1000, 2000, 4000, 8000, 8000]` the claim lists. -/
theorem retry_wait_schedule_cex :
    (retry { retries := 5, delay := 1000, exponential := true, maxDelay := 8000 }
       (fun j => Except.error (CBError.external j))).waits = [1000, 2000, 4000, 8000] ∧
    (retry { retries := 5, delay := 1000, exponential := true, maxDelay := 8000 }
       (fun j => Except.error (CBError.external j))).waits ≠
      [1000, 2000, 4000, 8000, 8000] := by
  refine ⟨rfl, ?_⟩
  decide

/-- C6 amended.  The wait inserted before the next attempt after a
failed attempt with 1-based index `attemptIndex = j + 1` is `delay`
when `exponential` is false and `min(delay * 2^(attemptIndex-1),
maxDelay)` when it is true; waits are inserted only while attempts
remain, so an all-failing run with `retries = n` produces the schedule
for `j = 0 … n-2`.  With `delay=1000`, `maxDelay=8000`, `retries=5` the
inter-attempt waits are `1000, 2000, 4000, 8000` ms (capped; four
waits, none after the final attempt). -/
theorem retry_wait_schedule (opts : RetryOptions) (fn : Nat → Except CBError Val)
    (e : Nat → CBError) (hfn : ∀ j, fn j = Except.error (e j)) :
    (retry opts fn).waits = (List.range (opts.retries - 1)).map
      (fun j => if opts.exponential then min (opts.delay * 2 ^ j) opts.maxDelay
                else opts.delay) ∧
    (retry { retries := 5, delay := 1000, exponential := true, maxDelay := 8000 }
       (fun j => Except.error (CBError.external j))).waits = [1000, 2000, 4000, 8000] := by
  constructor
  · have := retryAux_allfail_waits opts fn e hfn opts.retries 0 none 0 [] (by omega)
    rw [retry, this, List.range_eq_range']
    simp
  · rfl

/-! ### The failure window while CLOSED, and HALF_OPEN probing -/

/-- One `execute` call whose `fn` throws a counted error while CLOSED,
when no window entry would be pruned: the timestamp is appended and the
breaker opens exactly when the window length reaches the threshold. -/
theorem execute_err_closed_post (opts : CircuitBreakerOptions) (s : CBState)
    (e : CBError) (now : Int) (hs : s.state = CircuitState.CLOSED)
    (hf : opts.isFailure e = true)
    (hkeep : ∀ a ∈ s.failureTimestamps ++ [now], now - opts.failureWindow < a) :
    (s.execute opts (Except.error e) now).fnInvoked = true ∧
    (s.execute opts (Except.error e) now).post =
      (if opts.failureThreshold ≤ s.failureTimestamps.length + 1 then
        { s with totalCalls := s.totalCalls + 1, failures := s.failures + 1,
                 totalFailures := s.totalFailures + 1, lastFailure := some now,
                 failureTimestamps := s.failureTimestamps ++ [now],
                 state := CircuitState.OPEN, resetTimerPending := true }
      else
        { s with totalCalls := s.totalCalls + 1, failures := s.failures + 1,
                 totalFailures := s.totalFailures + 1, lastFailure := some now,
                 failureTimestamps := s.failureTimestamps ++ [now] }) := by
  have hfilter : (s.failureTimestamps ++ [now]).filter
      (fun ts => decide (now - opts.failureWindow < ts)) = s.failureTimestamps ++ [now] :=
    List.filter_eq_self.mpr (fun a ha => decide_eq_true (hkeep a ha))
  constructor
  · simp [CBState.execute, hs, hf]
  · simp only [CBState.execute, CBState.onFailure, CBState.cleanupFailureTimestamps,
      CBState.openCircuit, hs, hf]
    simp [hs, hf, hfilter]
    split <;> simp_all

/-- Counted failures at instants `ts`, starting CLOSED with a window
whose entries (and all of `ts`) survive every pruning cutoff in `ts`:
when the total count reaches the threshold the breaker ends OPEN, and
`fn` was invoked once per element of `ts`. -/
theorem runFailures_opens (opts : CircuitBreakerOptions) (e : CBError)
    (hf : opts.isFailure e = true) :
    ∀ (ts : List Int) (s : CBState),
      s.state = CircuitState.CLOSED →
      (∀ a ∈ s.failureTimestamps, ∀ b ∈ ts, b - opts.failureWindow < a) →
      (∀ a ∈ ts, ∀ b ∈ ts, b - opts.failureWindow < a) →
      s.failureTimestamps.length + ts.length = opts.failureThreshold →
      ts ≠ [] →
      (runFailures opts e s ts).1.state = CircuitState.OPEN ∧
      (runFailures opts e s ts).2 = ts.length := by
  intro ts
  induction ts with
  | nil => intro s _ _ _ _ hne; exact absurd rfl hne
  | cons t rest ih =>
      intro s hs h1 h2 hlen _
      have hkeep : ∀ a ∈ s.failureTimestamps ++ [t], t - opts.failureWindow < a := by
        intro a ha
        rcases List.mem_append.mp ha with h | h
        · exact h1 a h t (by simp)
        · simp only [List.mem_singleton] at h
          subst h
          exact h2 a (by simp) a (by simp)
      have hstep := execute_err_closed_post opts s e t hs hf hkeep
      simp only [runFailures]
      cases rest with
      | nil =>
          have hcond : opts.failureThreshold ≤ s.failureTimestamps.length + 1 := by
            simp at hlen; omega
          rw [hstep.1, hstep.2, if_pos hcond]
          simp [runFailures]
      | cons r0 rest' =>
          have hcond : ¬ opts.failureThreshold ≤ s.failureTimestamps.length + 1 := by
            simp at hlen; omega
          rw [hstep.1, hstep.2, if_neg hcond]
          have hrec := ih { s with totalCalls := s.totalCalls + 1, failures := s.failures + 1, totalFailures := s.totalFailures + 1, lastFailure := some t, failureTimestamps := s.failureTimestamps ++ [t] }
            (by simp [hs])
            (by intro a ha b hb
                rcases List.mem_append.mp ha with h | h
                · exact h1 a h b (List.mem_cons_of_mem t hb)
                · simp only [List.mem_singleton] at h
                  subst h
                  exact h2 a (by simp) b (List.mem_cons_of_mem _ hb))
            (by intro a ha b hb
                exact h2 a (List.mem_cons_of_mem t ha) b (List.mem_cons_of_mem t hb))
            (by simp at hlen ⊢; omega)
            (by simp)
          simp only at hrec
          rw [hrec.1, hrec.2]
          simp
          omega

/-- C1.  Starting from a fresh CLOSED breaker, every sequence of
`failureThreshold` counted failures whose instants all lie within one
`failureWindow` of each other drives the breaker to OPEN; `fn` was
invoked exactly `failureThreshold` times; and the next `execute` call
does not invoke `fn` (so with `failureThreshold = 3` the fourth call
leaves the `fn` call count at 3). -/
theorem circuit_opens_after_window_failures (opts : CircuitBreakerOptions)
    (e : CBError) (ts : List Int) (t' : Int) (out : Except CBError Val)
    (hf : opts.isFailure e = true)
    (hk : 1 ≤ opts.failureThreshold)
    (hlen : ts.length = opts.failureThreshold)
    (hwin : ∀ a ∈ ts, ∀ b ∈ ts, b - opts.failureWindow < a) :
    (runFailures opts e CBState.init ts).1.state = CircuitState.OPEN ∧
    (runFailures opts e CBState.init ts).2 = opts.failureThreshold ∧
    ((runFailures opts e CBState.init ts).1.execute opts out t').fnInvoked = false := by
  have hne : ts ≠ [] := by
    intro h
    rw [h] at hlen
    simp at hlen
    omega
  have h := runFailures_opens opts e hf ts CBState.init rfl
    (by intro a ha; simp [CBState.init] at ha)
    hwin (by simpa [CBState.init] using hlen) hne
  refine ⟨h.1, by rw [h.2, hlen], ?_⟩
  rw [execute_while_open opts _ out t' h.1]

theorem circuit_opens_after_window_failures_witness :
    ({ failureThreshold := 3 } : CircuitBreakerOptions).isFailure (CBError.external 0) = true ∧
    (runFailures { failureThreshold := 3 } (CBError.external 0) CBState.init
      [0, 0, 0]).1.state = CircuitState.OPEN ∧
    (runFailures { failureThreshold := 3 } (CBError.external 0) CBState.init [0, 0, 0]).2 = 3 ∧
    ((runFailures { failureThreshold := 3 } (CBError.external 0) CBState.init
      [0, 0, 0]).1.execute { failureThreshold := 3 }
        (Except.error (CBError.external 1)) 0).fnInvoked = false := by
  have h := circuit_opens_after_window_failures { failureThreshold := 3 } (CBError.external 0)
    [0, 0, 0] 0 (Except.error (CBError.external 1)) rfl (by decide) rfl (by decide)
  exact ⟨rfl, h.1, h.2.1, h.2.2⟩

/-- One successful `execute` call while HALF_OPEN: the success counter
bumps, and the breaker closes exactly when it reaches the threshold. -/
theorem execute_ok_halfopen_post (opts : CircuitBreakerOptions) (s : CBState)
    (v : Val) (now : Int) (hs : s.state = CircuitState.HALF_OPEN) :
    (s.execute opts (Except.ok v) now).post =
      (if opts.successThreshold ≤ s.successes + 1 then
        { s with totalCalls := s.totalCalls + 1, totalSuccesses := s.totalSuccesses + 1,
                 lastSuccess := some now, state := CircuitState.CLOSED, failures := 0,
                 successes := 0, failureTimestamps := [], resetTimerPending := false }
      else
        { s with totalCalls := s.totalCalls + 1, successes := s.successes + 1,
                 totalSuccesses := s.totalSuccesses + 1, lastSuccess := some now }) := by
  simp only [CBState.execute, CBState.onSuccess, CBState.closeCircuit, hs]
  simp [hs]
  split <;> simp_all

/-- A counted failure while HALF_OPEN opens the circuit immediately,
with no threshold check. -/
theorem execute_err_halfopen_state (opts : CircuitBreakerOptions) (s : CBState)
    (e : CBError) (now : Int) (hs : s.state = CircuitState.HALF_OPEN)
    (hf : opts.isFailure e = true) :
    (s.execute opts (Except.error e) now).post.state = CircuitState.OPEN := by
  simp [CBState.execute, CBState.onFailure, CBState.cleanupFailureTimestamps, hs, hf,
    openCircuit_state]

/-- From HALF_OPEN with `k` successes already banked, `threshold - k`
further consecutive successful calls close the circuit. -/
theorem runSuccesses_closes (opts : CircuitBreakerOptions) (v : Val) :
    ∀ (ts : List Int) (s : CBState),
      s.state = CircuitState.HALF_OPEN →
      s.successes + ts.length = opts.successThreshold →
      ts ≠ [] →
      (runSuccesses opts v s ts).state = CircuitState.CLOSED := by
  intro ts
  induction ts with
  | nil => intro s _ _ hne; exact absurd rfl hne
  | cons t rest ih =>
      intro s hs hlen _
      simp only [runSuccesses]
      cases rest with
      | nil =>
          have hcond : opts.successThreshold ≤ s.successes + 1 := by simp at hlen; omega
          rw [execute_ok_halfopen_post opts s v t hs, if_pos hcond]
          simp [runSuccesses]
      | cons r0 rest' =>
          have hcond : ¬ opts.successThreshold ≤ s.successes + 1 := by simp at hlen; omega
          rw [execute_ok_halfopen_post opts s v t hs, if_neg hcond]
          exact ih _ (by simp [hs]) (by simp at hlen ⊢; omega) (by simp)

/-- C4.  In HALF_OPEN (which is always entered with the success counter
zeroed, last conjunct), `successThreshold` consecutive successful
`execute` calls transition the breaker to CLOSED, while a single
counted failure at any point in HALF_OPEN — whatever the banked success
count or the failure window — transitions it directly to OPEN with no
threshold check. -/
theorem half_open_probation (opts : CircuitBreakerOptions)
    (hth : 1 ≤ opts.successThreshold) :
    (∀ (s : CBState) (v : Val) (ts : List Int),
       s.state = CircuitState.HALF_OPEN → s.successes = 0 →
       ts.length = opts.successThreshold →
       (runSuccesses opts v s ts).state = CircuitState.CLOSED) ∧
    (∀ (s : CBState) (e : CBError) (now : Int),
       s.state = CircuitState.HALF_OPEN → opts.isFailure e = true →
       (s.execute opts (Except.error e) now).post.state = CircuitState.OPEN) ∧
    (∀ s : CBState, s.state ≠ CircuitState.HALF_OPEN →
       (s.halfOpenCircuit).1.successes = 0) := by
  refine ⟨?_, ?_, ?_⟩
  · intro s v ts hs hz hl
    refine runSuccesses_closes opts v ts s hs (by rw [hz, hl]; omega) ?_
    intro h
    rw [h] at hl
    simp at hl
    omega
  · intro s e now hs hf
    exact execute_err_halfopen_state opts s e now hs hf
  · intro s hs
    simp [CBState.halfOpenCircuit, hs]

theorem half_open_probation_witness :
    (1 ≤ ({} : CircuitBreakerOptions).successThreshold) ∧
    (runSuccesses {} 7 { state := CircuitState.HALF_OPEN } [0, 0]).state
      = CircuitState.CLOSED ∧
    (({ state := CircuitState.HALF_OPEN } : CBState).execute {}
        (Except.error (CBError.external 0)) 0).post.state = CircuitState.OPEN := by
  have h := half_open_probation ({} : CircuitBreakerOptions) (by decide)
  exact ⟨by decide, h.1 { state := CircuitState.HALF_OPEN } 7 [0, 0] rfl rfl rfl,
    h.2.1 { state := CircuitState.HALF_OPEN } (CBError.external 0) 0 rfl rfl⟩

theorem retry_wait_schedule_witness :
    (retry { retries := 5, delay := 1000, exponential := true, maxDelay := 8000 }
       (fun j => Except.error (CBError.external j))).waits =
      (List.range 4).map (fun j => min (1000 * 2 ^ j) 8000) :=
  (retry_wait_schedule { retries := 5, delay := 1000, exponential := true, maxDelay := 8000 }
     (fun j => Except.error (CBError.external j)) (fun j => CBError.external j)
     (fun _ => rfl)).1

/-! ### Reachability invariant: a pending reset timer implies OPEN -/

theorem halfOpenCircuit_pending (s : CBState) :
    (s.halfOpenCircuit).1.resetTimerPending = s.resetTimerPending := by
  unfold CBState.halfOpenCircuit
  split <;> rfl

theorem execute_pending_open (opts : CircuitBreakerOptions) (s : CBState)
    (out : Except CBError Val) (now : Int)
    (h : s.resetTimerPending = true → s.state = CircuitState.OPEN) :
    (s.execute opts out now).post.resetTimerPending = true →
    (s.execute opts out now).post.state = CircuitState.OPEN := by
  unfold CBState.execute CBState.onSuccess CBState.onFailure
    CBState.cleanupFailureTimestamps CBState.closeCircuit CBState.openCircuit
  dsimp only
  split
  · simp_all
  · split <;> (repeat' split) <;> simp_all

theorem timerFire_pending_open (s : CBState)
    (h : s.resetTimerPending = true → s.state = CircuitState.OPEN) :
    (s.timerFire).1.resetTimerPending = true →
    (s.timerFire).1.state = CircuitState.OPEN := by
  unfold CBState.timerFire
  split
  · rw [halfOpenCircuit_pending]
    simp
  · exact h

theorem closeCircuit_pending_open (s : CBState)
    (h : s.resetTimerPending = true → s.state = CircuitState.OPEN) :
    (s.closeCircuit).1.resetTimerPending = true →
    (s.closeCircuit).1.state = CircuitState.OPEN := by
  unfold CBState.closeCircuit
  split <;> simp_all

theorem reset_pending (s : CBState) :
    (s.reset).1.resetTimerPending = (s.closeCircuit).1.resetTimerPending := rfl

/-- Every reachable breaker state satisfies the timer invariant: a
pending reset timeout exists only while the breaker is OPEN. -/
theorem reachable_pending_open (opts : CircuitBreakerOptions) (s : CBState)
    (h : Reachable opts s) :
    s.resetTimerPending = true → s.state = CircuitState.OPEN := by
  induction h with
  | init => intro hp; cases hp
  | step s op _ ih =>
      cases op with
      | exec out now => exact execute_pending_open opts s out now ih
      | timerFire => exact timerFire_pending_open s ih
      | forceOpenOp => exact fun _ => openCircuit_state s
      | forceCloseOp => exact closeCircuit_pending_open s ih
      | resetOp =>
          intro hp
          have hp' : (s.closeCircuit).1.resetTimerPending = true := by
            rw [← reset_pending]; exact hp
          show (s.reset).1.state = CircuitState.OPEN
          have hcs : (s.reset).1.state = (s.closeCircuit).1.state := rfl
          rw [hcs]
          exact closeCircuit_pending_open s ih hp'

/-! ### Which transition edges each operation can produce -/

/-- An `execute` call on a CLOSED breaker leaves it CLOSED or opens it;
it never reaches HALF_OPEN. -/
theorem execute_closed_state (opts : CircuitBreakerOptions) (s : CBState)
    (out : Except CBError Val) (now : Int) (hs : s.state = CircuitState.CLOSED) :
    (s.execute opts out now).post.state = CircuitState.CLOSED ∨
    (s.execute opts out now).post.state = CircuitState.OPEN := by
  unfold CBState.execute CBState.onSuccess CBState.onFailure
    CBState.cleanupFailureTimestamps CBState.closeCircuit CBState.openCircuit
  dsimp only
  split
  · simp_all
  · split <;> (repeat' split) <;> simp_all

/-- The timer step either does nothing or (when a timeout was pending)
moves the breaker to HALF_OPEN. -/
theorem timerFire_state (s : CBState) :
    (s.timerFire).1 = s ∨
    (s.resetTimerPending = true ∧ (s.timerFire).1.state = CircuitState.HALF_OPEN) := by
  unfold CBState.timerFire
  split
  · exact Or.inr ⟨by assumption, halfOpenCircuit_state _⟩
  · exact Or.inl rfl

theorem reset_state (s : CBState) :
    (s.reset).1.state = CircuitState.CLOSED := by
  have hcs : (s.reset).1.state = (s.closeCircuit).1.state := rfl
  rw [hcs, closeCircuit_state]

/-- C7 counterexample.  `forceOpen()` then `forceClose()` from a fresh
breaker realises the transition OPEN→CLOSED — both states reachable,
and the administrative `forceClose` takes OPEN directly to CLOSED — an
edge absent from the claim's list of the only reachable edges. -/
theorem transition_edges_cex :
    Reachable {} (applyOp {} Op.forceOpenOp CBState.init) ∧
    (applyOp {} Op.forceOpenOp CBState.init).state = CircuitState.OPEN ∧
    (applyOp {} Op.forceCloseOp (applyOp {} Op.forceOpenOp CBState.init)).state
      = CircuitState.CLOSED ∧
    ¬ specEdge CircuitState.OPEN CircuitState.CLOSED :=
  ⟨Reachable.step CBState.init Op.forceOpenOp Reachable.init, rfl, rfl, by simp [specEdge]⟩

/-- C7 amended.  Over every reachable behavior of a breaker, a step
either leaves the state unchanged or follows one of the edges
CLOSED→OPEN, OPEN→HALF_OPEN, HALF_OPEN→CLOSED, HALF_OPEN→OPEN, or —
through the administrative `forceClose()`/`reset()` only — OPEN→CLOSED;
restricted to non-administrative operations (`execute` calls and the
reset timer), exactly the four edges of the claim occur. -/
theorem transition_edges_classified (opts : CircuitBreakerOptions) (s : CBState)
    (h : Reachable opts s) (op : Op) :
    ((applyOp opts op s).state = s.state ∨ adminEdge s.state (applyOp opts op s).state) ∧
    (op.isAdmin = false →
      ((applyOp opts op s).state = s.state ∨ specEdge s.state (applyOp opts op s).state)) := by
  have hinv := reachable_pending_open opts s h
  have main : (applyOp opts op s).state = s.state ∨ specEdge s.state (applyOp opts op s).state ∨
      (op.isAdmin = true ∧ s.state = CircuitState.OPEN ∧
        (applyOp opts op s).state = CircuitState.CLOSED) := by
    cases op with
    | exec out now =>
        cases hst : s.state with
        | CLOSED =>
            rcases execute_closed_state opts s out now hst with hc | hc <;>
              simp [applyOp, specEdge, hst, hc]
        | OPEN =>
            rw [show applyOp opts (Op.exec out now) s = (s.execute opts out now).post from rfl,
              execute_while_open opts s out now hst]
            exact Or.inl (by simp [hst])
        | HALF_OPEN =>
            cases hp : (s.execute opts out now).post.state <;>
              simp [applyOp, specEdge, hst, hp]
    | timerFire =>
        rcases timerFire_state s with ht | ⟨hp, ht⟩
        · exact Or.inl (by simp [applyOp, ht])
        · have hopen := hinv hp
          exact Or.inr (Or.inl (by simp [applyOp, specEdge, hopen, ht]))
    | forceOpenOp =>
        cases hst : s.state with
        | CLOSED => exact Or.inr (Or.inl (by simp [applyOp, specEdge, hst,
            openCircuit_state, CBState.forceOpen]))
        | OPEN => exact Or.inl (by simp [applyOp, hst, openCircuit_state, CBState.forceOpen])
        | HALF_OPEN => exact Or.inr (Or.inl (by simp [applyOp, specEdge, hst,
            openCircuit_state, CBState.forceOpen]))
    | forceCloseOp =>
        cases hst : s.state with
        | CLOSED => exact Or.inl (by simp [applyOp, hst, closeCircuit_state, CBState.forceClose])
        | OPEN => exact Or.inr (Or.inr ⟨rfl, rfl, by
            simp [applyOp, closeCircuit_state, CBState.forceClose]⟩)
        | HALF_OPEN => exact Or.inr (Or.inl (by simp [applyOp, specEdge, hst,
            closeCircuit_state, CBState.forceClose]))
    | resetOp =>
        cases hst : s.state with
        | CLOSED => exact Or.inl (by simp [applyOp, hst, reset_state])
        | OPEN => exact Or.inr (Or.inr ⟨rfl, rfl, by simp [applyOp, reset_state]⟩)
        | HALF_OPEN => exact Or.inr (Or.inl (by simp [applyOp, specEdge, hst, reset_state]))
  constructor
  · rcases main with h1 | h1 | ⟨_, h2, h3⟩
    · exact Or.inl h1
    · exact Or.inr (Or.inl h1)
    · exact Or.inr (Or.inr ⟨h2, h3⟩)
  · intro hna
    rcases main with h1 | h1 | ⟨h2, _, _⟩
    · exact Or.inl h1
    · exact Or.inr h1
    · rw [hna] at h2; cases h2

theorem transition_edges_classified_witness :
    (applyOp {} (Op.exec (Except.ok 0) 0) CBState.init).state = CBState.init.state ∨
    specEdge CBState.init.state (applyOp {} (Op.exec (Except.ok 0) 0) CBState.init).state :=
  (transition_edges_classified {} CBState.init Reachable.init (Op.exec (Except.ok 0) 0)).2 rfl

/-! ### Registry lemmas -/

theorem find?_append_single (l : List (String × CircuitBreaker))
    (p : String × CircuitBreaker → Bool) (x : String × CircuitBreaker)
    (h : l.find? p = none) (hx : p x = true) :
    (l ++ [x]).find? p = some x := by
  induction l with
  | nil => simp [List.find?_cons, hx]
  | cons a l ih =>
      rw [List.cons_append, List.find?_cons]
      rw [List.find?_cons] at h
      cases hpa : p a with
      | true => rw [hpa] at h; cases h
      | false =>
          rw [hpa] at h
          simp only [hpa]
          exact ih h

/-- After `get(name)`, the registry maps `name` to the breaker that
`get` returned. -/
theorem registry_find_after_get (r : CircuitBreakerRegistry) (name : String)
    (options : CircuitBreakerOptions) :
    ((r.get name options).2).find name = some (r.get name options).1 := by
  unfold CircuitBreakerRegistry.get
  cases h : r.find name with
  | some b => simp [h]
  | none =>
      simp only [h]
      unfold CircuitBreakerRegistry.find at h ⊢
      have hfind : r.breakers.find? (fun p => p.1 == name) = none := by
        cases hf : r.breakers.find? (fun p => p.1 == name) with
        | none => rfl
        | some q => rw [hf] at h; cases h
      rw [find?_append_single r.breakers _ _ hfind (by simp)]
      rfl

/-- After `remove(name)`, the registry no longer maps `name`. -/
theorem registry_find_after_remove (r : CircuitBreakerRegistry) (name : String) :
    ((r.remove name).2).find name = none := by
  unfold CircuitBreakerRegistry.remove
  cases h : r.find name with
  | none => simp [h]
  | some b =>
      simp only [h]
      unfold CircuitBreakerRegistry.find
      have : (List.filter (fun p => !(p.1 == name)) r.breakers).find?
          (fun p => p.1 == name) = none := by
        rw [List.find?_eq_none]
        intro x hx
        have := (List.mem_filter.mp hx).2
        simp at this
        simp [this]
      rw [this]
      rfl

/-- C9.  For every name, `get(name)` creates a breaker on first access
and every subsequent `get(name)` returns the identical stored instance,
ignoring the later options and leaving the registry unchanged;
`remove(name)` followed by `get(name)` returns a new, freshly
constructed instance (built from the later options) whose state is
CLOSED. -/
theorem registry_get_or_create (reg : CircuitBreakerRegistry) (name : String)
    (o1 o2 : CircuitBreakerOptions) :
    ((reg.get name o1).2.get name o2).1 = (reg.get name o1).1 ∧
    ((reg.get name o1).2.get name o2).2 = (reg.get name o1).2 ∧
    (((reg.get name o1).2.remove name).2.get name o2).1 =
      { opts := { o2 with name := name }, st := CBState.init } ∧
    (((reg.get name o1).2.remove name).2.get name o2).1.st.state
      = CircuitState.CLOSED := by
  have h1 := registry_find_after_get reg name o1
  have h2 := registry_find_after_remove (reg.get name o1).2 name
  refine ⟨?_, ?_, ?_, ?_⟩
  · rw [CircuitBreakerRegistry.get, h1]
  · rw [CircuitBreakerRegistry.get, h1]
  · rw [CircuitBreakerRegistry.get, h2]
  · rw [CircuitBreakerRegistry.get, h2]
    rfl

end BotTemplate
